import Mathlib

/-!
Shallow embedding of the student-number assignment core of the
`wua_admissions` backend (Express + MySQL, `src/unnamed/part_009`,
router for `/api/v1/student-numbers/...`).

Tables are modelled as lists of rows; every SQL statement of the routes
is translated to an explicit pure function on a `DB` value.  External
collaborators (PDF generation, e-mail dispatch) are modelled as inputs
describing their outcome, since the routes only branch on whether they
throw.  JavaScript string truthiness (`''` is falsy) is modelled
explicitly by `truthyStr`.
-/

namespace WUA

/-- Row of `student_number_ranges`.  The column `prefix` is called `pfx`
here.  `is_active` is the `0/1` flag `is_active`. -/
structure RangeRow where
  id : Nat
  pfx : String
  start_number : Int
  end_number : Int
  next_number : Int
  is_active : Bool
deriving Repr, DecidableEq

/-- Relevant columns of `applications`. `student_number` is NULLable. -/
structure ApplicationRow where
  id : Nat
  reference_number : String
  programme : String
  accepted_status : String
  student_number : Option String
  starting_semester : String
  satellite_campus : String
deriving Repr, DecidableEq

/-- Relevant columns of `personal_details` (joined for the applicant
e-mail in the post-commit phase of `assign`). -/
structure PersonalRow where
  application_id : Nat
  email : Option String
deriving Repr, DecidableEq

/-- Row of `student_number_assignments` (the assignment ledger). -/
structure AssignmentRow where
  application_id : Nat
  reference_number : String
  student_number : String
  range_id : Nat
  assigned_by : Option Nat
deriving Repr, DecidableEq

/-- Row of `offer_letters`.  `created_at` is an abstract timestamp used
by the `ORDER BY created_at DESC` queries. -/
structure OfferLetterRow where
  id : Nat
  application_id : Nat
  reference_number : String
  student_number : String
  file_name : String
  file_path : String
  verification_code : String
  generated_by : Option Nat
  latest : Bool
  created_at : Nat
deriving Repr, DecidableEq

/-- The relational store, restricted to the tables the core touches. -/
structure DB where
  ranges : List RangeRow
  applications : List ApplicationRow
  personal_details : List PersonalRow
  assignments : List AssignmentRow
  offer_letters : List OfferLetterRow
deriving Repr, DecidableEq

/-- JavaScript truthiness of a nullable string column: `null` and the
empty string are falsy (`if (application.student_number)` etc.). -/
def truthyStr : Option String → Bool
  | none => false
  | some s => !(s == "")

/-- JavaScript `String.prototype.trim()`: strip leading and trailing
whitespace (structurally computable, unlike `String.trim`). -/
def trimStr (s : String) : String :=
  List.asString
    (((s.data.dropWhile Char.isWhitespace).reverse.dropWhile Char.isWhitespace).reverse)

/-- `SELECT ... FROM applications WHERE reference_number = ? [FOR UPDATE]`
(the driver returns the rows in table order; the routes use row 0). -/
def findApplication (db : DB) (ref : String) : Option ApplicationRow :=
  db.applications.find? (fun a => a.reference_number == ref)

/-- `SELECT * FROM student_number_ranges WHERE is_active = 1 LIMIT 1`. -/
def findActiveRange (db : DB) : Option RangeRow :=
  db.ranges.find? (fun r => r.is_active)

/-- `UPDATE applications SET accepted_status = 'accepted',
student_number = ?, programme = ? WHERE id = ?`. -/
def updateApplicationRows (apps : List ApplicationRow) (appId : Nat)
    (sn prog : String) : List ApplicationRow :=
  apps.map (fun a =>
    if a.id == appId then
      { a with accepted_status := "accepted", student_number := some sn,
               programme := prog }
    else a)

/-- `UPDATE student_number_ranges SET next_number = next_number + 1
WHERE id = ?`. -/
def bumpRangeRows (rs : List RangeRow) (rid : Nat) : List RangeRow :=
  rs.map (fun r =>
    if r.id == rid then { r with next_number := r.next_number + 1 } else r)

/-- Outcome of the transactional claim step of
`POST /assign/:referenceNumber` (part_009 lines 789-853). -/
inductive AssignOutcome where
  | notFound
  | alreadyAssigned (studentNumber : String)
  | noActiveRange
  | rangeExhausted
  | assigned (applicationId : Nat) (studentNumber : String)
deriving Repr, DecidableEq

/-- The transactional part of `POST /assign/:referenceNumber`: lock the
application row, return the existing number if already assigned, lock
the active range, check exhaustion, then update application, increment
the cursor and insert the ledger row (all-or-nothing). -/
def assignClaim (db : DB) (ref acceptedProgramme : String)
    (actor : Option Nat) : AssignOutcome × DB :=
  match findApplication db ref with
  | none => (.notFound, db)
  | some app =>
    if truthyStr app.student_number then
      (.alreadyAssigned (app.student_number.getD ""), db)
    else
      match findActiveRange db with
      | none => (.noActiveRange, db)
      | some range =>
        if range.next_number > range.end_number then
          (.rangeExhausted, db)
        else
          let studentNumber := range.pfx ++ toString range.next_number
          let programmeToAccept :=
            if acceptedProgramme == "" then app.programme else acceptedProgramme
          let entry : AssignmentRow :=
            ⟨app.id, app.reference_number, studentNumber, range.id, actor⟩
          (.assigned app.id studentNumber,
            { db with
              applications :=
                updateApplicationRows db.applications app.id studentNumber
                  programmeToAccept,
              ranges := bumpRangeRows db.ranges range.id,
              assignments := db.assignments ++ [entry] })

/-- Outcomes of the external collaborators and generated fresh values
used by one `assign`/`regenerate` invocation: `letterResult` is
`some (fileName, publicPath)` when `generateOfferLetter` returns and
`none` when it throws; `emailOk` is whether `transporter.sendMail`
succeeds; `verificationCode` is the fresh `uuidv4()`; `newLetterId` the
`insertId` of the `offer_letters` insert; `createdAt` its timestamp. -/
structure SideFx where
  letterResult : Option (String × String)
  emailOk : Bool
  verificationCode : String
  newLetterId : Nat
  createdAt : Nat
deriving Repr, DecidableEq

/-- HTTP-level result of `POST /assign/:referenceNumber`:
404, the idempotent 200 (`Student number already assigned`), 400
(`No active student number range set`), 409 (`Student number range
exhausted`), or the successful 200 carrying
`{studentNumber, emailSent, letterGenerated, offerLetterPath}`. -/
inductive AssignHttp where
  | notFound
  | already (studentNumber : String)
  | noActiveRange
  | exhausted
  | ok (studentNumber : String) (emailSent letterGenerated : Bool)
      (offerLetterPath : Option String)
deriving Repr, DecidableEq

/-- An attempted e-mail dispatch: recipient and the attachment path
(`mailOptions.attachments` is set only when the letter was generated). -/
structure EmailAttempt where
  toAddr : String
  attachmentPath : Option String
deriving Repr, DecidableEq

/-- Result of one full `assign` invocation: the HTTP response, the
final store, and the e-mail attempt (if any). -/
structure AssignRun where
  response : AssignHttp
  db : DB
  emailAttempt : Option EmailAttempt
deriving Repr, DecidableEq

/-- The applicant e-mail read by the post-commit info query
(`applications LEFT JOIN personal_details`, column `pd.email`). -/
def applicantEmail (db : DB) (ref : String) : Option String :=
  match findApplication db ref with
  | none => none
  | some a =>
    match db.personal_details.find? (fun p => p.application_id == a.id) with
    | none => none
    | some p => p.email

/-- `UPDATE offer_letters SET latest = 0 WHERE application_id = ?`. -/
def flipLatestRows (ls : List OfferLetterRow) (appId : Nat) :
    List OfferLetterRow :=
  ls.map (fun l => if l.application_id == appId then { l with latest := false } else l)

/-- The whole `POST /assign/:referenceNumber` handler: the transactional
claim (`assignClaim`) followed by the post-commit best-effort phase —
offer-letter generation guarded by try/catch (on success: flip `latest`,
insert the new `offer_letters` row), then the e-mail attempt guarded by
its own try/catch (attachment only when the letter was generated). -/
def assignEndpoint (db : DB) (ref acceptedProgramme : String)
    (actor : Option Nat) (fx : SideFx) : AssignRun :=
  match assignClaim db ref acceptedProgramme actor with
  | (.notFound, db') => ⟨.notFound, db', none⟩
  | (.alreadyAssigned sn, db') => ⟨.already sn, db', none⟩
  | (.noActiveRange, db') => ⟨.noActiveRange, db', none⟩
  | (.rangeExhausted, db') => ⟨.exhausted, db', none⟩
  | (.assigned appId sn, db1) =>
    let emailAddr := applicantEmail db1 ref
    let gen : Bool × Option String × DB :=
      match fx.letterResult with
      | none => (false, none, db1)
      | some (fn, pp) =>
        let newRow : OfferLetterRow :=
          ⟨fx.newLetterId, appId, ref, sn, fn, pp, fx.verificationCode,
           actor, true, fx.createdAt⟩
        (true, some pp,
          { db1 with offer_letters :=
              flipLatestRows db1.offer_letters appId ++ [newRow] })
    let letterGenerated := gen.1
    let letterPublicPath := gen.2.1
    let db2 := gen.2.2
    let attempted := truthyStr emailAddr
    let emailSent := attempted && fx.emailOk
    let emailAttempt : Option EmailAttempt :=
      if attempted then
        some ⟨emailAddr.getD "",
              if letterGenerated && truthyStr letterPublicPath then
                letterPublicPath
              else none⟩
      else none
    ⟨.ok sn emailSent letterGenerated letterPublicPath, db2, emailAttempt⟩

/-- HTTP-level result of `POST /range`:
400 with one of the two validation messages, or 201 echoing
`{id, prefix, startNumber, endNumber, nextNumber}`. -/
inductive RangeHttp where
  | invalidArgument (message : String)
  | created (id : Nat) (pfx : String) (startNumber endNumber nextNumber : Int)
deriving Repr, DecidableEq

/-- Whether a `RangeHttp` is the 400 validation failure. -/
def RangeHttp.isInvalidArgument : RangeHttp → Bool
  | .invalidArgument _ => true
  | _ => false

/-- One SQL statement issued by the `POST /range` handler, as an atomic
store action (the handler runs them on the shared pool with no
transaction): the blanket `UPDATE ... SET is_active = 0 WHERE
is_active = 1`, and the `INSERT` of the new active range. -/
inductive RangeAction where
  | deactivate
  | insertNew (pfx : String) (startNumber endNumber : Int) (newId : Nat)
deriving Repr, DecidableEq

/-- `UPDATE student_number_ranges SET is_active = 0 WHERE is_active = 1`. -/
def deactivateActiveRows (rs : List RangeRow) : List RangeRow :=
  rs.map (fun r => if r.is_active then { r with is_active := false } else r)

/-- Apply one of the two `POST /range` statements to the store. -/
def applyRangeAction (db : DB) : RangeAction → DB
  | .deactivate => { db with ranges := deactivateActiveRows db.ranges }
  | .insertNew pfx s e newId =>
    { db with ranges := db.ranges ++ [⟨newId, pfx, s, e, s, true⟩] }

/-- Execute a sequence of `POST /range` statements in the order the
store serializes them (each statement is individually atomic). -/
def runRangeActions (db : DB) (acts : List RangeAction) : DB :=
  acts.foldl applyRangeAction db

/-- The `POST /range` handler.  `startN`/`endN` are the results of
`Number(req.body...)`: `none` models a value that is not an integer
(`Number.isInteger` false), `some n` an integer.  `pfxRaw` is the
optional `prefix` body field. -/
def createRange (db : DB) (pfxRaw : Option String) (startN endN : Option Int)
    (newId : Nat) : RangeHttp × DB :=
  let pfx :=
    match pfxRaw with
    | none => "w"
    | some s => if trimStr s == "" then "w" else trimStr s
  match startN, endN with
  | some s, some e =>
    if s ≤ 0 || e ≤ 0 then
      (.invalidArgument "startNumber and endNumber must be positive integers", db)
    else if s > e then
      (.invalidArgument "startNumber must be <= endNumber", db)
    else
      (.created newId pfx s e s,
        runRangeActions db [.deactivate, .insertNew pfx s e newId])
  | _, _ =>
    (.invalidArgument "startNumber and endNumber must be positive integers", db)

/-- Number of rows of `student_number_ranges` with `is_active = 1`. -/
def countActiveRanges (db : DB) : Nat :=
  (db.ranges.filter (fun r => r.is_active)).length

/-- The projection returned by the verify query: columns of the matched
`offer_letters` row plus the `LEFT JOIN applications` columns (absent
when no application row matches `ol.application_id`). -/
structure VerifyRow where
  reference_number : String
  student_number : String
  created_at : Nat
  programme : Option String
  starting_semester : Option String
  satellite_campus : Option String
deriving Repr, DecidableEq

/-- `ORDER BY created_at DESC LIMIT 1` over a list of matching rows
(first row wins ties, matching the driver returning some single row). -/
def pickLatestLetter : List OfferLetterRow → Option OfferLetterRow
  | [] => none
  | l :: ls =>
    match pickLatestLetter ls with
    | none => some l
    | some m => if m.created_at > l.created_at then some m else some l

/-- The projection of one `offer_letters` row joined with its
application, as selected by the verify query. -/
def verifyProjection (db : DB) (l : OfferLetterRow) : VerifyRow :=
  match db.applications.find? (fun a => a.id == l.application_id) with
  | none => ⟨l.reference_number, l.student_number, l.created_at, none, none, none⟩
  | some a =>
    ⟨l.reference_number, l.student_number, l.created_at,
     some a.programme, some a.starting_semester, some a.satellite_campus⟩

/-- The verify lookup: `WHERE ol.verification_code = ?
ORDER BY ol.created_at DESC LIMIT 1`, `LEFT JOIN applications`. -/
def verifyLookup (db : DB) (code : String) : Option VerifyRow :=
  match pickLatestLetter
      (db.offer_letters.filter (fun l => l.verification_code == code)) with
  | none => none
  | some l => some (verifyProjection db l)

/-- HTTP-level result of `GET /offer-letter/verify`: 400 when the code
is blank, 404 when no letter matches, or the 200 body
`{valid: true, offerLetter}`. -/
inductive VerifyHttp where
  | invalidArgument (message : String)
  | notFound (message : String)
  | ok (offerLetter : VerifyRow)
deriving Repr, DecidableEq

/-- The `GET /offer-letter/verify` handler.  `codeParam` is
`req.query.code` (`none` when absent); the handler computes
`String(req.query.code || '').trim()` and rejects a blank result before
querying the store. -/
def verifyEndpoint (db : DB) (codeParam : Option String) : VerifyHttp :=
  let code := trimStr (codeParam.getD "")
  if code == "" then .invalidArgument "Verification code is required"
  else
    match verifyLookup db code with
    | none => .notFound "Offer letter not found"
    | some row => .ok row

/-- HTTP-level result of `POST /offer-letter/:referenceNumber/regenerate`:
404 (`Application not found`), 400 (`Student number not assigned yet`),
500 when `generateOfferLetter` throws, or 200 with the letter path. -/
inductive RegenHttp where
  | notFound
  | invalidState
  | serverError
  | ok (offerLetterPath : String)
deriving Repr, DecidableEq

/-- The `POST /offer-letter/:referenceNumber/regenerate` handler: look
up the application, require a truthy `student_number`, regenerate the
letter (a thrown generation error reaches the outer catch before any
write), then flip `latest` and insert the new row. -/
def regenerateEndpoint (db : DB) (ref : String) (actor : Option Nat)
    (fx : SideFx) : RegenHttp × DB :=
  match findApplication db ref with
  | none => (.notFound, db)
  | some app =>
    if truthyStr app.student_number then
      match fx.letterResult with
      | none => (.serverError, db)
      | some (fn, pp) =>
        let newRow : OfferLetterRow :=
          ⟨fx.newLetterId, app.id, ref, app.student_number.getD "", fn, pp,
           fx.verificationCode, actor, true, fx.createdAt⟩
        (.ok pp,
          { db with offer_letters :=
              flipLatestRows db.offer_letters app.id ++ [newRow] })
    else (.invalidState, db)

/-- Number of `offer_letters` rows of one application with `latest = 1`. -/
def countLatestLetters (db : DB) (appId : Nat) : Nat :=
  (db.offer_letters.filter (fun l => l.application_id == appId && l.latest)).length

/-- Value of a decimal digit character (inverse of `Nat.digitChar` on
digits), used to show the decimal rendering of the range cursor is
injective. -/
def digitVal (c : Char) : Nat := c.toNat - '0'.toNat

/-- One step of reading a most-significant-first digit string back into
a number. -/
def decodeDigitsStep (acc : Nat) (c : Char) : Nat := acc * 10 + digitVal c

/-- Read a decimal string back into a number (left inverse of
`Nat.repr` on its image). -/
def decodeStr (s : String) : Nat := s.data.foldl decodeDigitsStep 0

/-- One request to `POST /assign/:referenceNumber`: the path parameter,
the optional `acceptedProgramme` body field (already trimmed; `""` when
absent) and the authenticated actor id. -/
structure AssignReq where
  ref : String
  acceptedProgramme : String
  actor : Option Nat
deriving Repr, DecidableEq

/-- Run a sequence of assign claims back to back, collecting the
outcome of each call and threading the store. -/
def runAssignClaims : DB → List AssignReq → List AssignOutcome × DB
  | db, [] => ([], db)
  | db, q :: qs =>
    let step := assignClaim db q.ref q.acceptedProgramme q.actor
    let rest := runAssignClaims step.2 qs
    (step.1 :: rest.1, rest.2)

/-- Whether an outcome is a fresh successful issuance. -/
def AssignOutcome.isAssigned : AssignOutcome → Bool
  | .assigned _ _ => true
  | _ => false

/-- The student numbers issued by a list of outcomes, in call order. -/
def issuedNumbers (outs : List AssignOutcome) : List String :=
  outs.filterMap (fun o =>
    match o with
    | .assigned _ sn => some sn
    | _ => none)

/-- Modelled from the spec (claim C6): the verify response must be
limited to reference number, student number, programme and issue date —
"nothing else about the applicant".  Against the projection actually
selected by the code this says the two further applicant columns
(`starting_semester`, `satellite_campus`) are absent. -/
def verifySpecLimited : VerifyHttp → Bool
  | .ok r => r.starting_semester == none && r.satellite_campus == none
  | _ => true

/-! Concrete fixtures used by witnesses and counterexamples. -/

/-- A pending application without a student number. -/
def exApp1 : ApplicationRow := ⟨1, "REF-1", "BSC", "pending", none, "August", "Harare"⟩

/-- A second pending application without a student number. -/
def exApp2 : ApplicationRow := ⟨2, "REF-2", "BA", "pending", none, "March", "Marondera"⟩

/-- An application that already carries a student number. -/
def exAppNumbered : ApplicationRow :=
  ⟨3, "REF-3", "BSC", "accepted", some "w200001", "August", "Harare"⟩

/-- A single-slot active range `[5, 5]` with cursor at 5. -/
def exRange55 : RangeRow := ⟨1, "w", 5, 5, 5, true⟩

/-- An active range `[5, 9]` with cursor at 5. -/
def exRange59 : RangeRow := ⟨1, "w", 5, 9, 5, true⟩

/-- A personal-details row holding the applicant e-mail. -/
def exPd1 : PersonalRow := ⟨1, some "applicant@example.com"⟩

/-- Side effects where `generateOfferLetter` throws and `sendMail`
fails. -/
def exFxFail : SideFx := ⟨none, false, "vc-9", 10, 3⟩

/-- Side effects where `generateOfferLetter` and `sendMail` succeed. -/
def exFxOk : SideFx := ⟨some ("offer.pdf", "/letters/offer.pdf"), true, "vc-9", 10, 3⟩

/-- Store for the exhaustion scenario: single-slot range, two
unnumbered applications. -/
def c3db : DB := ⟨[exRange55], [exApp1, exApp2], [exPd1], [], []⟩

/-- The store after the first successful assign of the exhaustion
scenario. -/
def c3db1 : DB := (assignEndpoint c3db "REF-1" "" (some 7) exFxOk).db

/-- Store for the sequence scenario: range `[5, 9]`, two unnumbered
applications. -/
def c2db : DB := ⟨[exRange59], [exApp1, exApp2], [], [], []⟩

/-- Two assign requests against distinct unnumbered applications. -/
def c2reqs : List AssignReq := [⟨"REF-1", "", some 7⟩, ⟨"REF-2", "BA", some 8⟩]

/-- Store with an already-numbered application and an active range. -/
def c1db : DB := ⟨[exRange55], [exAppNumbered, exApp1], [], [], []⟩

/-- An offer letter of application 1 with verification code `vc-1`. -/
def c6letter : OfferLetterRow :=
  ⟨10, 1, "REF-1", "w200001", "offer.pdf", "/letters/offer.pdf", "vc-1", some 7, true, 4⟩

/-- Store for the verification scenario: one letter joined to an
application that carries a programme, starting semester and campus. -/
def c6db : DB := ⟨[], [exApp1], [], [], [c6letter]⟩

/-- A prior `latest = 1` offer letter of the numbered application. -/
def c7old : OfferLetterRow :=
  ⟨10, 3, "REF-3", "w200001", "old.pdf", "/letters/old.pdf", "vc-0", some 7, true, 4⟩

/-- Store for the regenerate scenario. -/
def c7db : DB := ⟨[exRange55], [exAppNumbered], [], [], [c7old]⟩

/-- Store with one active range, used for the range-creation traces. -/
def c4db : DB := ⟨[exRange55], [], [], [], []⟩

/-- The statements of two concurrent `POST /range` calls interleaved as
deactivate-deactivate-insert-insert (each statement runs on the shared
pool in autocommit, so the store may serialize them this way). -/
def c4interleaved : List RangeAction :=
  [.deactivate, .deactivate, .insertNew "w" 10 20 2, .insertNew "x" 30 40 3]

/-- The same two calls fully serialized one after the other. -/
def c4sequential : List RangeAction :=
  [.deactivate, .insertNew "w" 10 20 2, .deactivate, .insertNew "x" 30 40 3]

/-! Decimal rendering: `toString` on the range cursor is injective and
never empty, so issued student numbers are distinct and truthy. -/

theorem digitVal_digitChar (d : Nat) (hd : d < 10) :
    digitVal (Nat.digitChar d) = d := by
  interval_cases d <;> decide

theorem toDigitsCore_decode (f : Nat) :
    ∀ (n : Nat) (ds : List Char), n < f →
      (Nat.toDigitsCore 10 f n ds).foldl decodeDigitsStep 0 =
        ds.foldl decodeDigitsStep n := by
  induction f with
  | zero => intro n ds h; exact absurd h (Nat.not_lt_zero n)
  | succ f ih =>
    intro n ds h
    simp only [Nat.toDigitsCore]
    by_cases h10 : n / 10 = 0
    · have hmod : n % 10 = n := by
        have hdam := Nat.div_add_mod n 10
        rw [h10] at hdam
        simpa using hdam
      have hlt : n < 10 := by
        rw [← hmod]; exact Nat.mod_lt n (by norm_num)
      simp only [h10, if_true, List.foldl_cons, decodeDigitsStep,
        Nat.zero_mul, Nat.zero_add, hmod]
      rw [digitVal_digitChar n hlt]
    · have hpos : 0 < n := by
        rcases Nat.eq_zero_or_pos n with h0 | h0
        · subst h0; simp at h10
        · exact h0
      have hdiv_lt : n / 10 < n := Nat.div_lt_self hpos (by norm_num)
      have hfuel : n / 10 < f := by omega
      simp only [h10, if_false]
      rw [ih (n / 10) (Nat.digitChar (n % 10) :: ds) hfuel]
      simp only [List.foldl_cons, decodeDigitsStep,
        digitVal_digitChar (n % 10) (Nat.mod_lt n (by norm_num))]
      have : n / 10 * 10 + n % 10 = n := by
        have := Nat.div_add_mod n 10; omega
      rw [this]

theorem decodeStr_repr (n : Nat) : decodeStr (Nat.repr n) = n := by
  show (Nat.toDigitsCore 10 (n + 1) n []).foldl decodeDigitsStep 0 = n
  rw [toDigitsCore_decode (n + 1) n [] (Nat.lt_succ_self n)]
  rfl

theorem natRepr_injective {a b : Nat} (h : Nat.repr a = Nat.repr b) : a = b := by
  have ha := decodeStr_repr a
  rw [h, decodeStr_repr b] at ha
  exact ha.symm

theorem natRepr_ne_empty (n : Nat) : Nat.repr n ≠ "" := by
  intro h
  have h0 : n = 0 := by
    have := decodeStr_repr n
    rw [h] at this
    exact this.symm ▸ rfl
  rw [h0] at h
  exact absurd h (by decide)

theorem intToString_ne_empty (n : Int) : toString n ≠ "" := by
  cases n with
  | ofNat m => exact natRepr_ne_empty m
  | negSucc m =>
    intro h
    have hd : ("-" ++ Nat.repr (m + 1)).data = ("" : String).data := congrArg String.data h
    rw [String.data_append] at hd
    simp at hd

theorem intToString_inj_nonneg {a b : Int} (ha : 0 ≤ a) (hb : 0 ≤ b)
    (h : toString a = toString b) : a = b := by
  obtain ⟨m, rfl⟩ := Int.eq_ofNat_of_zero_le ha
  obtain ⟨k, rfl⟩ := Int.eq_ofNat_of_zero_le hb
  exact congrArg Int.ofNat (natRepr_injective h)

theorem stringAppend_left_cancel {p a b : String} (h : p ++ a = p ++ b) : a = b := by
  apply String.ext
  have hd := congrArg String.data h
  rw [String.data_append, String.data_append] at hd
  exact List.append_cancel_left hd

theorem appendToString_ne_empty (p : String) (n : Int) : p ++ toString n ≠ "" := by
  intro h
  have hd := congrArg String.data h
  rw [String.data_append] at hd
  have hnil := List.append_eq_nil.mp hd
  exact intToString_ne_empty n (String.ext hnil.2)


theorem find?_ext {α : Type} (p q : α → Bool) (l : List α) (h : ∀ a, p a = q a) :
    l.find? p = l.find? q := by
  induction l with
  | nil => rfl
  | cons x xs ih =>
    cases hpx : p x with
    | true => rw [List.find?_cons_of_pos _ hpx, List.find?_cons_of_pos _ ((h x) ▸ hpx)]
    | false => rw [List.find?_cons_of_neg _ (by simp [hpx]), List.find?_cons_of_neg _ (by simp [← h x, hpx]), ih]

theorem find?_bumpRangeRows (rs : List RangeRow) (rid : Nat) :
    (bumpRangeRows rs rid).find? (fun r => r.is_active) =
      (rs.find? (fun r => r.is_active)).map
        (fun r => if r.id == rid then { r with next_number := r.next_number + 1 } else r) := by
  unfold bumpRangeRows
  rw [List.find?_map]
  congr 1
  apply find?_ext
  intro a
  by_cases h : a.id == rid <;> simp [h, Function.comp]

theorem find?_updateApplicationRows (apps : List ApplicationRow) (appId : Nat)
    (sn prog ref : String) :
    (updateApplicationRows apps appId sn prog).find? (fun a => a.reference_number == ref) =
      (apps.find? (fun a => a.reference_number == ref)).map
        (fun a => if a.id == appId then
          { a with accepted_status := "accepted", student_number := some sn,
                   programme := prog }
          else a) := by
  unfold updateApplicationRows
  rw [List.find?_map]
  congr 1
  apply find?_ext
  intro a
  by_cases h : a.id == appId <;> simp [h, Function.comp]

theorem findApplication_mem {db : DB} {ref : String} {app : ApplicationRow}
    (h : findApplication db ref = some app) :
    app ∈ db.applications ∧ app.reference_number = ref := by
  refine ⟨List.mem_of_find?_eq_some h, ?_⟩
  have := List.find?_some h
  simpa using this

theorem assignClaim_assigned_eq
    (db : DB) (ref prog : String) (actor : Option Nat)
    (app : ApplicationRow) (r : RangeRow)
    (happ : findApplication db ref = some app)
    (hsn : truthyStr app.student_number = false)
    (hr : findActiveRange db = some r)
    (hle : r.next_number ≤ r.end_number) :
    assignClaim db ref prog actor =
      (.assigned app.id (r.pfx ++ toString r.next_number),
       { db with
         applications := updateApplicationRows db.applications app.id
             (r.pfx ++ toString r.next_number)
             (if prog == "" then app.programme else prog),
         ranges := bumpRangeRows db.ranges r.id,
         assignments := db.assignments ++
           [⟨app.id, app.reference_number, r.pfx ++ toString r.next_number, r.id, actor⟩] }) := by
  unfold assignClaim
  rw [happ]
  dsimp only
  rw [if_neg (by simp [hsn])]
  rw [hr]
  dsimp only
  rw [if_neg (not_lt.mpr hle)]

theorem assignClaim_assigned_inv
    {db : DB} {ref prog : String} {actor : Option Nat} {appId : Nat} {sn : String} {db' : DB}
    (h : assignClaim db ref prog actor = (.assigned appId sn, db')) :
    ∃ app r, findApplication db ref = some app ∧
      truthyStr app.student_number = false ∧
      findActiveRange db = some r ∧
      r.next_number ≤ r.end_number ∧
      appId = app.id ∧
      sn = r.pfx ++ toString r.next_number ∧
      db' = { db with
        applications := updateApplicationRows db.applications app.id sn
            (if prog == "" then app.programme else prog),
        ranges := bumpRangeRows db.ranges r.id,
        assignments := db.assignments ++ [⟨app.id, app.reference_number, sn, r.id, actor⟩] } := by
  unfold assignClaim at h
  cases happ : findApplication db ref with
  | none => rw [happ] at h; simp at h
  | some app =>
    rw [happ] at h
    dsimp only at h
    by_cases hsn : truthyStr app.student_number = true
    · rw [if_pos hsn] at h
      exact absurd (congrArg Prod.fst h) (by simp)
    · rw [if_neg hsn] at h
      have hsnf : truthyStr app.student_number = false := by simpa using hsn
      cases hrng : findActiveRange db with
      | none => rw [hrng] at h; simp at h
      | some r =>
        rw [hrng] at h
        dsimp only at h
        by_cases hex : r.next_number > r.end_number
        · rw [if_pos hex] at h
          exact absurd (congrArg Prod.fst h) (by simp)
        · rw [if_neg hex] at h
          have h1 := congrArg Prod.fst h
          have h2 := congrArg Prod.snd h
          simp only at h1 h2
          obtain ⟨hid, hsne⟩ := AssignOutcome.assigned.inj h1
          refine ⟨app, r, rfl, hsnf, rfl, not_lt.mp hex, hid.symm, hsne.symm, ?_⟩
          rw [← h2, hsne]


theorem assignClaim_already
    (db : DB) (ref prog : String) (actor : Option Nat)
    (app : ApplicationRow) (sn : String)
    (happ : findApplication db ref = some app)
    (hsn : app.student_number = some sn) (hne : sn ≠ "") :
    assignClaim db ref prog actor = (.alreadyAssigned sn, db) := by
  unfold assignClaim
  rw [happ]
  dsimp only
  rw [if_pos (by simp [truthyStr, hsn, hne])]
  rw [hsn]
  rfl

theorem assignEndpoint_already
    (db : DB) (ref prog : String) (actor : Option Nat) (fx : SideFx)
    (app : ApplicationRow) (sn : String)
    (happ : findApplication db ref = some app)
    (hsn : app.student_number = some sn) (hne : sn ≠ "") :
    assignEndpoint db ref prog actor fx = ⟨.already sn, db, none⟩ := by
  unfold assignEndpoint
  rw [assignClaim_already db ref prog actor app sn happ hsn hne]

theorem assignEndpoint_exhausted
    (db : DB) (ref prog : String) (actor : Option Nat) (fx : SideFx)
    (app : ApplicationRow) (r : RangeRow)
    (happ : findApplication db ref = some app)
    (hsnf : truthyStr app.student_number = false)
    (hr : findActiveRange db = some r)
    (hex : r.next_number > r.end_number) :
    assignEndpoint db ref prog actor fx = ⟨.exhausted, db, none⟩ := by
  have hclaim : assignClaim db ref prog actor = (.rangeExhausted, db) := by
    unfold assignClaim
    rw [happ]
    dsimp only
    rw [if_neg (by simp [hsnf])]
    rw [hr]
    dsimp only
    rw [if_pos hex]
  unfold assignEndpoint
  rw [hclaim]

theorem assignEndpoint_assigned_letterFail
    (db : DB) (ref prog : String) (actor : Option Nat) (fx : SideFx)
    (appId : Nat) (sn : String) (db1 : DB)
    (hclaim : assignClaim db ref prog actor = (.assigned appId sn, db1))
    (hfx : fx.letterResult = none) :
    assignEndpoint db ref prog actor fx =
      ⟨.ok sn (truthyStr (applicantEmail db1 ref) && fx.emailOk) false none, db1,
       if truthyStr (applicantEmail db1 ref) then
         some ⟨(applicantEmail db1 ref).getD "", none⟩
       else none⟩ := by
  unfold assignEndpoint
  rw [hclaim]
  dsimp only
  rw [hfx]
  rfl

theorem assignEndpoint_assigned_letterOk
    (db : DB) (ref prog : String) (actor : Option Nat) (fx : SideFx)
    (appId : Nat) (sn fn pp : String) (db1 : DB)
    (hclaim : assignClaim db ref prog actor = (.assigned appId sn, db1))
    (hfx : fx.letterResult = some (fn, pp)) :
    assignEndpoint db ref prog actor fx =
      ⟨.ok sn (truthyStr (applicantEmail db1 ref) && fx.emailOk) true (some pp),
       { db1 with offer_letters :=
           flipLatestRows db1.offer_letters appId ++
             [⟨fx.newLetterId, appId, ref, sn, fn, pp, fx.verificationCode,
               actor, true, fx.createdAt⟩] },
       if truthyStr (applicantEmail db1 ref) then
         some ⟨(applicantEmail db1 ref).getD "",
               if truthyStr (some pp) then some pp else none⟩
       else none⟩ := by
  unfold assignEndpoint
  rw [hclaim]
  dsimp only
  rw [hfx]
  rfl

theorem assignEndpoint_ok_inv
    {db : DB} {ref prog : String} {actor : Option Nat} {fx : SideFx}
    {sn : String} {es lg : Bool} {lp : Option String}
    (h : (assignEndpoint db ref prog actor fx).response = .ok sn es lg lp) :
    ∃ appId db1, assignClaim db ref prog actor = (.assigned appId sn, db1) ∧
      (assignEndpoint db ref prog actor fx).db.applications = db1.applications ∧
      (assignEndpoint db ref prog actor fx).db.ranges = db1.ranges := by
  cases hc : assignClaim db ref prog actor with
  | mk o db' =>
    cases o with
    | notFound =>
      have he : assignEndpoint db ref prog actor fx = ⟨.notFound, db', none⟩ := by
        unfold assignEndpoint; rw [hc]
      rw [he] at h; exact absurd h (by simp)
    | alreadyAssigned s =>
      have he : assignEndpoint db ref prog actor fx = ⟨.already s, db', none⟩ := by
        unfold assignEndpoint; rw [hc]
      rw [he] at h; exact absurd h (by simp)
    | noActiveRange =>
      have he : assignEndpoint db ref prog actor fx = ⟨.noActiveRange, db', none⟩ := by
        unfold assignEndpoint; rw [hc]
      rw [he] at h; exact absurd h (by simp)
    | rangeExhausted =>
      have he : assignEndpoint db ref prog actor fx = ⟨.exhausted, db', none⟩ := by
        unfold assignEndpoint; rw [hc]
      rw [he] at h; exact absurd h (by simp)
    | assigned appId sn' =>
      cases hfx : fx.letterResult with
      | none =>
        have he := assignEndpoint_assigned_letterFail db ref prog actor fx appId sn' db' hc hfx
        rw [he] at h
        simp only [AssignHttp.ok.injEq] at h
        obtain ⟨h1, -, -, -⟩ := h
        subst h1
        exact ⟨appId, db', rfl, by rw [he], by rw [he]⟩
      | some v =>
        obtain ⟨fn, pp⟩ := v
        have he := assignEndpoint_assigned_letterOk db ref prog actor fx appId sn' fn pp db' hc hfx
        rw [he] at h
        simp only [AssignHttp.ok.injEq] at h
        obtain ⟨h1, -, -, -⟩ := h
        subst h1
        exact ⟨appId, db', rfl, by rw [he], by rw [he]⟩


/-- Claim C1: assign is idempotent.  (a) For an application whose
student number is already set (non-null and, per the code's truthiness
check, non-empty) assign returns the existing number with a success
status and performs no writes at all (store unchanged).  (b) If a first
assign call on a reference succeeds with number `sn`, a second call on
the same reference returns the identical `sn`, performs no writes, and
the active range's cursor has advanced by exactly 1 in total. -/
theorem C1_assign_idempotent
    (db : DB) (ref prog prog2 : String) (actor actor2 : Option Nat) (fx fx2 : SideFx) :
    (∀ app sn, findApplication db ref = some app → app.student_number = some sn →
       sn ≠ "" →
       assignEndpoint db ref prog actor fx = ⟨.already sn, db, none⟩) ∧
    (∀ r sn es lg lp, findActiveRange db = some r →
       (assignEndpoint db ref prog actor fx).response = .ok sn es lg lp →
       assignEndpoint (assignEndpoint db ref prog actor fx).db ref prog2 actor2 fx2 =
         ⟨.already sn, (assignEndpoint db ref prog actor fx).db, none⟩ ∧
       findActiveRange (assignEndpoint db ref prog actor fx).db =
         some { r with next_number := r.next_number + 1 }) := by
  constructor
  · intro app sn happ hsn hne
    exact assignEndpoint_already db ref prog actor fx app sn happ hsn hne
  · intro r sn es lg lp hr hok
    obtain ⟨appId, db1, hclaim, happs, hranges⟩ := assignEndpoint_ok_inv hok
    obtain ⟨app, r', happ, hsnf, hr', hle, hid, hsn, hdb1⟩ :=
      assignClaim_assigned_inv hclaim
    rw [hr] at hr'
    injection hr' with hr'
    subst hr'
    have hne : sn ≠ "" := by
      rw [hsn]; exact appendToString_ne_empty r.pfx r.next_number
    have hfind : findApplication (assignEndpoint db ref prog actor fx).db ref =
        some { app with
                 accepted_status := "accepted",
                 student_number := some sn,
                 programme := (if prog == "" then app.programme else prog) } := by
      unfold findApplication
      rw [happs, hdb1]
      dsimp only
      rw [find?_updateApplicationRows]
      unfold findApplication at happ
      rw [happ]
      simp
    refine ⟨assignEndpoint_already _ ref prog2 actor2 fx2 _ sn hfind rfl hne, ?_⟩
    unfold findActiveRange
    rw [hranges, hdb1]
    dsimp only
    rw [find?_bumpRangeRows]
    unfold findActiveRange at hr
    rw [hr]
    simp

/-- Witness for C1 at concrete stores: an already-numbered application
is returned its number with the store untouched, and a fresh issuance
followed by a repeat call returns the same number `w5` while the cursor
moved from 5 to 6 only once. -/
theorem C1_assign_idempotent_witness :
    assignEndpoint c1db "REF-3" "" none exFxOk = ⟨.already "w200001", c1db, none⟩ ∧
    assignEndpoint c3db1 "REF-1" "" (some 7) exFxOk = ⟨.already "w5", c3db1, none⟩ ∧
    findActiveRange c3db1 =
      some { exRange55 with next_number := exRange55.next_number + 1 } := by
  have h1 := (C1_assign_idempotent c1db "REF-3" "" "" none none exFxOk exFxOk).1
      exAppNumbered "w200001" (by decide) rfl (by decide)
  have h2 := (C1_assign_idempotent c3db "REF-1" "" "" (some 7) (some 7) exFxOk exFxOk).2
      exRange55 "w5" true true (some "/letters/offer.pdf") rfl (by decide)
  exact ⟨h1, h2.1, h2.2⟩

/-- Claim C3: when the active range is exhausted (`next > end`) the
assign call fails with Conflict and mutates nothing: the returned store
is the input store, no e-mail is attempted. -/
theorem C3_range_exhaustion
    (db : DB) (ref prog : String) (actor : Option Nat) (fx : SideFx)
    (app : ApplicationRow) (r : RangeRow)
    (happ : findApplication db ref = some app)
    (hsnf : truthyStr app.student_number = false)
    (hr : findActiveRange db = some r)
    (hex : r.next_number > r.end_number) :
    assignEndpoint db ref prog actor fx = ⟨.exhausted, db, none⟩ :=
  assignEndpoint_exhausted db ref prog actor fx app r happ hsnf hr hex

/-- Witness for C3, the single-slot scenario `[5, 5]`: the first assign
issues `w5` and moves the cursor to 6; a second assign on a different
application fails with Conflict and the cursor stays at 6. -/
theorem C3_range_exhaustion_witness :
    (assignEndpoint c3db "REF-1" "" (some 7) exFxOk).response =
        .ok "w5" true true (some "/letters/offer.pdf") ∧
    findActiveRange c3db1 = some ⟨1, "w", 5, 5, 6, true⟩ ∧
    assignEndpoint c3db1 "REF-2" "" (some 7) exFxOk = ⟨.exhausted, c3db1, none⟩ ∧
    findActiveRange (assignEndpoint c3db1 "REF-2" "" (some 7) exFxOk).db =
      some ⟨1, "w", 5, 5, 6, true⟩ := by
  refine ⟨by decide, by decide, ?_, ?_⟩
  · exact C3_range_exhaustion c3db1 "REF-2" "" (some 7) exFxOk
      ⟨2, "REF-2", "BA", "pending", none, "March", "Marondera"⟩
      ⟨1, "w", 5, 5, 6, true⟩ (by decide) (by decide) (by decide) (by decide)
  · rw [C3_range_exhaustion c3db1 "REF-2" "" (some 7) exFxOk
      ⟨2, "REF-2", "BA", "pending", none, "March", "Marondera"⟩
      ⟨1, "w", 5, 5, 6, true⟩ (by decide) (by decide) (by decide) (by decide)]
    decide

/-- Claim C5: once the claim transaction committed, a failure of
offer-letter generation is caught: assign still answers success with
the issued number and `letterGenerated = false`, the committed store is
kept as-is, and the e-mail attempt proceeds without an attachment;
`emailSent` reports the e-mail outcome (`false` when sending fails)
independently.  A failed claim, by contrast, never produces the `ok`
response, so the caller can distinguish the two. -/
theorem C5_side_effect_independence
    (db : DB) (ref prog : String) (actor : Option Nat) (fx : SideFx)
    (appId : Nat) (sn : String) (db1 : DB)
    (hclaim : assignClaim db ref prog actor = (.assigned appId sn, db1)) :
    (fx.letterResult = none →
       assignEndpoint db ref prog actor fx =
         ⟨.ok sn (truthyStr (applicantEmail db1 ref) && fx.emailOk) false none, db1,
          if truthyStr (applicantEmail db1 ref) then
            some ⟨(applicantEmail db1 ref).getD "", none⟩
          else none⟩) ∧
    (∀ fn pp, fx.letterResult = some (fn, pp) →
       (assignEndpoint db ref prog actor fx).response =
         .ok sn (truthyStr (applicantEmail db1 ref) && fx.emailOk) true (some pp)) := by
  constructor
  · intro hfx
    exact assignEndpoint_assigned_letterFail db ref prog actor fx appId sn db1 hclaim hfx
  · intro fn pp hfx
    rw [assignEndpoint_assigned_letterOk db ref prog actor fx appId sn fn pp db1 hclaim hfx]

/-- Witness for C5: concrete run in which the PDF generator throws and
the mailer fails — the claim is committed (`w5` returned), the response
is still a success with `letterGenerated = false`, `emailSent = false`,
and the e-mail was attempted without an attachment. -/
theorem C5_side_effect_independence_witness :
    assignEndpoint c3db "REF-1" "" (some 7) exFxFail =
      ⟨.ok "w5" false false none, (assignClaim c3db "REF-1" "" (some 7)).2,
       some ⟨"applicant@example.com", none⟩⟩ := by
  have h := (C5_side_effect_independence c3db "REF-1" "" (some 7) exFxFail 1 "w5"
      (assignClaim c3db "REF-1" "" (some 7)).2 (by decide)).1 rfl
  rw [h]
  decide

/-- Claim C9: an `acceptedProgramme` override supplied for an
application that already has a student number is silently ignored: the
call returns the existing number and the store — in particular the
application's programme and acceptance status — is left unchanged. -/
theorem C9_override_ignored
    (db : DB) (ref prog : String) (actor : Option Nat) (fx : SideFx)
    (app : ApplicationRow) (sn : String)
    (happ : findApplication db ref = some app)
    (hsn : app.student_number = some sn) (hne : sn ≠ "") (hov : prog ≠ "") :
    assignEndpoint db ref prog actor fx = ⟨.already sn, db, none⟩ :=
  assignEndpoint_already db ref prog actor fx app sn happ hsn hne

/-- Witness for C9: a different, non-empty programme override on an
already-numbered application changes nothing and returns the old
number. -/
theorem C9_override_ignored_witness :
    assignEndpoint c1db "REF-3" "NEWPROG" (some 7) exFxOk =
      ⟨.already "w200001", c1db, none⟩ ∧
    "NEWPROG" ≠ exAppNumbered.programme := by
  refine ⟨?_, by decide⟩
  exact C9_override_ignored c1db "REF-3" "NEWPROG" (some 7) exFxOk
    exAppNumbered "w200001" (by decide) rfl (by decide) (by decide)


/-- Claim C8: `POST /range` rejects any request whose bounds are not
positive integers or are out of order, with a 400 before any write: the
store is returned unchanged (no range deactivated, none inserted). -/
theorem C8_createRange_validation
    (db : DB) (pfxRaw : Option String) (startN endN : Option Int) (newId : Nat)
    (h : startN = none ∨ endN = none ∨
         (∃ s, startN = some s ∧ s ≤ 0) ∨ (∃ e, endN = some e ∧ e ≤ 0) ∨
         (∃ s e, startN = some s ∧ endN = some e ∧ e < s)) :
    (createRange db pfxRaw startN endN newId).1.isInvalidArgument = true ∧
    (createRange db pfxRaw startN endN newId).2 = db := by
  unfold createRange
  rcases h with h | h | ⟨s, hs, hsle⟩ | ⟨e, he, hele⟩ | ⟨s, e, hs, he, hlt⟩
  · subst h; cases endN <;> exact ⟨rfl, rfl⟩
  · subst h; cases startN <;> exact ⟨rfl, rfl⟩
  · subst hs
    cases endN with
    | none => exact ⟨rfl, rfl⟩
    | some e =>
      dsimp only
      rw [if_pos (by simp [hsle])]
      exact ⟨rfl, rfl⟩
  · subst he
    cases startN with
    | none => exact ⟨rfl, rfl⟩
    | some s =>
      dsimp only
      rw [if_pos (by simp [hele])]
      exact ⟨rfl, rfl⟩
  · subst hs; subst he
    dsimp only
    by_cases hp : (decide (s ≤ 0) || decide (e ≤ 0)) = true
    · rw [if_pos hp]; exact ⟨rfl, rfl⟩
    · rw [if_neg hp, if_pos (by simpa using hlt)]
      exact ⟨rfl, rfl⟩

/-- Witness for C8: bounds `5 > 3` are rejected and the store (holding
an active range) is untouched. -/
theorem C8_createRange_validation_witness :
    (createRange c4db (some "w") (some 5) (some 3) 9).1.isInvalidArgument = true ∧
    (createRange c4db (some "w") (some 5) (some 3) 9).2 = c4db :=
  C8_createRange_validation c4db (some "w") (some 5) (some 3) 9
    (Or.inr (Or.inr (Or.inr (Or.inr ⟨5, 3, rfl, rfl, by decide⟩))))

/-- Claim C10: a missing, empty or whitespace-only `code` query
parameter makes verify fail with 400 `Verification code is required`
for every store (so before any lookup), while a non-blank code matching
no letter yields 404 — blank input is distinguished from an unknown
code. -/
theorem C10_verify_blank_code
    (db : DB) (s t : String) (hblank : trimStr s = "") (ht : trimStr t ≠ "")
    (hmiss : ∀ l ∈ db.offer_letters, l.verification_code ≠ trimStr t) :
    verifyEndpoint db none = .invalidArgument "Verification code is required" ∧
    verifyEndpoint db (some s) = .invalidArgument "Verification code is required" ∧
    verifyEndpoint db (some t) = .notFound "Offer letter not found" := by
  refine ⟨?_, ?_, ?_⟩
  · unfold verifyEndpoint
    rw [if_pos (by decide)]
  · unfold verifyEndpoint
    dsimp only [Option.getD]
    rw [if_pos (by simp [hblank])]
  · unfold verifyEndpoint
    dsimp only [Option.getD]
    rw [if_neg (by simp [ht])]
    have hfil : db.offer_letters.filter (fun l => l.verification_code == trimStr t) = [] := by
      rw [List.filter_eq_nil_iff]
      intro l hl
      simp [hmiss l hl]
    unfold verifyLookup
    rw [hfil]
    rfl

/-- Witness for C10: whitespace-only and missing codes are rejected
against a store that does hold a letter, and an unknown code gives
404. -/
theorem C10_verify_blank_code_witness :
    verifyEndpoint c6db none = .invalidArgument "Verification code is required" ∧
    verifyEndpoint c6db (some "   ") = .invalidArgument "Verification code is required" ∧
    verifyEndpoint c6db (some "zzz") = .notFound "Offer letter not found" := by
  have h := C10_verify_blank_code c6db "   " "zzz" (by decide) (by decide) (by decide)
  exact ⟨h.1, h.2.1, h.2.2⟩

/-- Claim C4 (code bug): `POST /range` issues its deactivate and insert
statements as two separate autocommit queries on the shared pool — not
inside a transaction.  Fully serialized calls do keep exactly one
active range (the most recent, with the cursor of the superseded range
frozen), but an interleaving of two concurrent calls
ends with TWO active ranges, violating the single-active invariant
stated by the claim and by the code's own comment. -/
theorem C4_createRange_not_atomic :
    (createRange c4db (some "w") (some 10) (some 20) 2).2 =
        runRangeActions c4db [.deactivate, .insertNew "w" 10 20 2] ∧
    countActiveRanges (runRangeActions c4db c4sequential) = 1 ∧
    findActiveRange (runRangeActions c4db c4sequential) =
      some ⟨3, "x", 30, 40, 30, true⟩ ∧
    (runRangeActions c4db c4sequential).ranges.head? =
      some ⟨1, "w", 5, 5, 5, false⟩ ∧
    countActiveRanges (runRangeActions c4db c4interleaved) = 2 := by
  exact ⟨by decide, by decide, by decide, by decide, by decide⟩

theorem pickLatestLetter_mem {ls : List OfferLetterRow} {l : OfferLetterRow}
    (h : pickLatestLetter ls = some l) : l ∈ ls := by
  induction ls with
  | nil => simp [pickLatestLetter] at h
  | cons x xs ih =>
    unfold pickLatestLetter at h
    cases hp : pickLatestLetter xs with
    | none =>
      rw [hp] at h
      injection h with h
      exact h ▸ List.mem_cons_self x xs
    | some m =>
      rw [hp] at h
      dsimp only at h
      by_cases hc : m.created_at > x.created_at
      · rw [if_pos hc] at h
        injection h with h
        subst h
        exact List.mem_cons_of_mem x (ih hp)
      · rw [if_neg hc] at h
        injection h with h
        exact h ▸ List.mem_cons_self x xs

/-- Claim C6, amended: for a non-blank code, a successful verify
response is exactly the projection of a matching letter row joined with
its application — reference number, student number, issue timestamp,
plus the application's programme, starting semester and satellite
campus; a code matching no letter yields 404. -/
theorem C6_verify_fields
    (db : DB) (code : String) (hcode : trimStr code ≠ "") :
    (∀ row, verifyEndpoint db (some code) = .ok row →
       ∃ l, l ∈ db.offer_letters ∧ l.verification_code = trimStr code ∧
         row = verifyProjection db l) ∧
    ((∀ l ∈ db.offer_letters, l.verification_code ≠ trimStr code) →
       verifyEndpoint db (some code) = .notFound "Offer letter not found") := by
  constructor
  · intro row hrow
    unfold verifyEndpoint at hrow
    dsimp only [Option.getD] at hrow
    rw [if_neg (by simp [hcode])] at hrow
    unfold verifyLookup at hrow
    cases hp : pickLatestLetter
        (db.offer_letters.filter (fun l => l.verification_code == trimStr code)) with
    | none => rw [hp] at hrow; simp at hrow
    | some l =>
      rw [hp] at hrow
      have hmem := pickLatestLetter_mem hp
      obtain ⟨hmem', hcodeeq⟩ := List.mem_filter.mp hmem
      refine ⟨l, hmem', by simpa using hcodeeq, ?_⟩
      injection hrow with hrow
      exact hrow.symm
  · intro hmiss
    unfold verifyEndpoint
    dsimp only [Option.getD]
    rw [if_neg (by simp [hcode])]
    have hfil : db.offer_letters.filter (fun l => l.verification_code == trimStr code) = [] := by
      rw [List.filter_eq_nil_iff]
      intro l hl
      simp [hmiss l hl]
    unfold verifyLookup
    rw [hfil]
    rfl

/-- Witness for the amended C6: the matching code returns exactly the
projection of the stored letter (with the joined application columns),
and an unknown code yields 404. -/
theorem C6_verify_fields_witness :
    verifyEndpoint c6db (some "vc-1") = .ok (verifyProjection c6db c6letter) ∧
    verifyEndpoint c6db (some "zzz") = .notFound "Offer letter not found" := by
  refine ⟨by decide, ?_⟩
  exact (C6_verify_fields c6db "zzz" (by decide)).2 (by decide)

/-- Counterexample to C6 as stated: the public verify response is NOT
limited to reference number, student number, programme and issue date —
at this store it also reveals the applicant's starting semester
(`August`) and satellite campus (`Harare`). -/
theorem C6_verify_leaks_counterexample :
    verifySpecLimited (verifyEndpoint c6db (some "vc-1")) = false ∧
    verifyEndpoint c6db (some "vc-1") =
      .ok ⟨"REF-1", "w200001", 4, some "BSC", some "August", some "Harare"⟩ := by
  exact ⟨by decide, by decide⟩


theorem filter_latest_flip_self (ls : List OfferLetterRow) (appId : Nat) :
    (flipLatestRows ls appId).filter
      (fun l => l.application_id == appId && l.latest) = [] := by
  rw [List.filter_eq_nil_iff]
  intro l hl
  unfold flipLatestRows at hl
  obtain ⟨x, hx, hfx⟩ := List.mem_map.mp hl
  by_cases hid : (x.application_id == appId) = true
  · rw [if_pos hid] at hfx
    subst hfx
    simp
  · rw [if_neg hid] at hfx
    subst hfx
    simp only [Bool.and_eq_true, not_and]
    intro hcontra
    exact absurd hcontra hid

theorem filter_latest_flip_other (ls : List OfferLetterRow) (appId n : Nat)
    (h : n ≠ appId) :
    (flipLatestRows ls appId).filter
        (fun l => l.application_id == n && l.latest) =
      ls.filter (fun l => l.application_id == n && l.latest) := by
  unfold flipLatestRows
  rw [List.filter_map]
  have hpq : ∀ x ∈ ls,
      ((fun l => l.application_id == n && l.latest) ∘
        (fun r => if r.application_id == appId then { r with latest := false } else r)) x =
      (fun l => l.application_id == n && l.latest) x := by
    intro x hx
    simp only [Function.comp_apply]
    by_cases hid : (x.application_id == appId) = true
    · have hxn : (x.application_id == n) = false := by
        rw [beq_iff_eq] at hid
        rw [beq_eq_false_iff_ne]
        omega
      rw [if_pos hid]
      simp [hxn]
    · rw [if_neg hid]
  rw [List.filter_congr hpq]
  have hmapid : List.map
      (fun r : OfferLetterRow =>
        if r.application_id == appId then { r with latest := false } else r)
      (List.filter (fun l => l.application_id == n && l.latest) ls) =
      List.map id (List.filter (fun l => l.application_id == n && l.latest) ls) := by
    apply List.map_congr_left
    intro x hx
    obtain ⟨hmem, hpx⟩ := List.mem_filter.mp hx
    have hxn : (x.application_id == n) = true := by
      rcases Bool.and_eq_true .. |>.mp hpx with ⟨h1, -⟩
      exact h1
    have hid : (x.application_id == appId) = false := by
      rw [beq_iff_eq] at hxn
      rw [beq_eq_false_iff_ne]
      omega
    rw [if_neg (by simp [hid])]
    rfl
  rw [hmapid, List.map_id]

/-- Claim C7: regenerate fails with 404 when the reference matches no
application and with 400 (invalid state) when no student number is
assigned, inserting nothing in either case; on success it flips
`latest` on every prior letter of the application before inserting the
new `latest = 1` row, keeps the at-most-one-latest invariant (exactly
one afterwards for this application, untouched counts for others), and
does not re-run numeric allocation: applications and ranges are
unchanged. -/
theorem C7_regenerate_semantics
    (db : DB) (ref : String) (actor : Option Nat) (fx : SideFx) :
    (findApplication db ref = none →
       regenerateEndpoint db ref actor fx = (.notFound, db)) ∧
    (∀ app, findApplication db ref = some app →
       truthyStr app.student_number = false →
       regenerateEndpoint db ref actor fx = (.invalidState, db)) ∧
    (∀ app fn pp, findApplication db ref = some app →
       truthyStr app.student_number = true →
       fx.letterResult = some (fn, pp) →
       (regenerateEndpoint db ref actor fx).1 = .ok pp ∧
       (regenerateEndpoint db ref actor fx).2.applications = db.applications ∧
       (regenerateEndpoint db ref actor fx).2.ranges = db.ranges ∧
       (regenerateEndpoint db ref actor fx).2.offer_letters =
         flipLatestRows db.offer_letters app.id ++
           [⟨fx.newLetterId, app.id, ref, app.student_number.getD "", fn, pp,
             fx.verificationCode, actor, true, fx.createdAt⟩] ∧
       countLatestLetters (regenerateEndpoint db ref actor fx).2 app.id = 1 ∧
       (∀ n, n ≠ app.id →
          countLatestLetters (regenerateEndpoint db ref actor fx).2 n =
            countLatestLetters db n)) := by
  refine ⟨?_, ?_, ?_⟩
  · intro hnone
    unfold regenerateEndpoint
    rw [hnone]
  · intro app happ hsnf
    unfold regenerateEndpoint
    rw [happ]
    dsimp only
    rw [if_neg (by simp [hsnf])]
  · intro app fn pp happ hsnt hfx
    have hred : regenerateEndpoint db ref actor fx =
        (.ok pp,
         { db with offer_letters :=
             flipLatestRows db.offer_letters app.id ++
               [⟨fx.newLetterId, app.id, ref, app.student_number.getD "", fn, pp,
                 fx.verificationCode, actor, true, fx.createdAt⟩] }) := by
      unfold regenerateEndpoint
      rw [happ]
      dsimp only
      rw [if_pos hsnt, hfx]
    rw [hred]
    refine ⟨rfl, rfl, rfl, rfl, ?_, ?_⟩
    · unfold countLatestLetters
      dsimp only
      rw [List.filter_append, filter_latest_flip_self]
      simp
    · intro n hn
      unfold countLatestLetters
      dsimp only
      rw [List.filter_append, filter_latest_flip_other db.offer_letters app.id n hn]
      have hnew : (List.filter (fun l => l.application_id == n && l.latest)
          [(⟨fx.newLetterId, app.id, ref, app.student_number.getD "", fn, pp,
            fx.verificationCode, actor, true, fx.createdAt⟩ : OfferLetterRow)]) = [] := by
        rw [List.filter_eq_nil_iff]
        intro l hl
        rw [List.mem_singleton] at hl
        subst hl
        simp only [Bool.and_eq_true, not_and]
        intro hcontra
        rw [beq_iff_eq] at hcontra
        exact absurd hcontra.symm hn
      rw [hnew]
      simp

/-- Witness for C7: unknown reference gives 404 with the store intact;
an application without a number gives 400 with the store intact; a
successful regenerate returns the letter path, leaves applications and
ranges untouched, and the application ends with exactly one
`latest = 1` letter. -/
theorem C7_regenerate_semantics_witness :
    regenerateEndpoint c7db "REF-9" none exFxOk = (.notFound, c7db) ∧
    regenerateEndpoint c6db "REF-1" none exFxOk = (.invalidState, c6db) ∧
    (regenerateEndpoint c7db "REF-3" none exFxOk).1 = .ok "/letters/offer.pdf" ∧
    (regenerateEndpoint c7db "REF-3" none exFxOk).2.applications = c7db.applications ∧
    (regenerateEndpoint c7db "REF-3" none exFxOk).2.ranges = c7db.ranges ∧
    countLatestLetters (regenerateEndpoint c7db "REF-3" none exFxOk).2 3 = 1 := by
  have h1 := (C7_regenerate_semantics c7db "REF-9" none exFxOk).1 (by decide)
  have h2 := (C7_regenerate_semantics c6db "REF-1" none exFxOk).2.1 exApp1 (by decide) (by decide)
  have h3 := (C7_regenerate_semantics c7db "REF-3" none exFxOk).2.2 exAppNumbered
      "offer.pdf" "/letters/offer.pdf" (by decide) (by decide) rfl
  exact ⟨h1, h2, h3.1, h3.2.1, h3.2.2.1, h3.2.2.2.2.1⟩

end WUA

namespace WUA

theorem runAssignClaims_cons_fst (db : DB) (q : AssignReq) (qs : List AssignReq) :
    (runAssignClaims db (q :: qs)).1 =
      (assignClaim db q.ref q.acceptedProgramme q.actor).1 ::
        (runAssignClaims (assignClaim db q.ref q.acceptedProgramme q.actor).2 qs).1 := rfl

theorem runAssignClaims_cons_snd (db : DB) (q : AssignReq) (qs : List AssignReq) :
    (runAssignClaims db (q :: qs)).2 =
      (runAssignClaims (assignClaim db q.ref q.acceptedProgramme q.actor).2 qs).2 := rfl

theorem issuedNumbers_cons_assigned (a : Nat) (s : String) (outs : List AssignOutcome) :
    issuedNumbers (AssignOutcome.assigned a s :: outs) = s :: issuedNumbers outs := rfl

theorem runAssignClaims_spec (reqs : List AssignReq) :
    ∀ (db : DB) (rr : RangeRow),
      findActiveRange db = some rr →
      (∀ o ∈ (runAssignClaims db reqs).1, o.isAssigned = true) →
      issuedNumbers (runAssignClaims db reqs).1 =
        (List.range reqs.length).map
          (fun i : Nat => rr.pfx ++ toString (rr.next_number + (i : Int))) ∧
      (∀ i : Nat, i < reqs.length → rr.next_number + (i : Int) ≤ rr.end_number) ∧
      findActiveRange (runAssignClaims db reqs).2 =
        some { rr with next_number := rr.next_number + (reqs.length : Int) } ∧
      (∃ newEntries : List AssignmentRow,
        (runAssignClaims db reqs).2.assignments = db.assignments ++ newEntries ∧
        newEntries.map (fun e => e.student_number) =
          issuedNumbers (runAssignClaims db reqs).1 ∧
        newEntries.map (fun e => e.reference_number) = reqs.map (fun q => q.ref) ∧
        newEntries.map (fun e => e.assigned_by) = reqs.map (fun q => q.actor) ∧
        (∀ e ∈ newEntries, e.range_id = rr.id)) := by
  induction reqs with
  | nil =>
    intro db rr hr hall
    refine ⟨rfl, ?_, ?_, ⟨[], ?_, rfl, rfl, rfl, ?_⟩⟩
    · intro i hi; exact absurd hi (Nat.not_lt_zero i)
    · simp only [List.length_nil, Nat.cast_zero, add_zero]
      exact hr
    · show (runAssignClaims db []).2.assignments = db.assignments ++ []
      rw [List.append_nil]
      rfl
    · intro e he; exact absurd he (List.not_mem_nil e)
  | cons q qs ih =>
    intro db rr hr hall
    cases hstep : assignClaim db q.ref q.acceptedProgramme q.actor with
    | mk o db1 =>
      have hconsf : (runAssignClaims db (q :: qs)).1 =
          o :: (runAssignClaims db1 qs).1 := by
        rw [runAssignClaims_cons_fst, hstep]
      have hconss : (runAssignClaims db (q :: qs)).2 =
          (runAssignClaims db1 qs).2 := by
        rw [runAssignClaims_cons_snd, hstep]
      have ho : o.isAssigned = true := by
        apply hall
        rw [hconsf]
        exact List.mem_cons_self _ _
      have halltail : ∀ x ∈ (runAssignClaims db1 qs).1, x.isAssigned = true := by
        intro x hx
        apply hall
        rw [hconsf]
        exact List.mem_cons_of_mem _ hx
      cases o with
      | notFound => simp [AssignOutcome.isAssigned] at ho
      | alreadyAssigned s => simp [AssignOutcome.isAssigned] at ho
      | noActiveRange => simp [AssignOutcome.isAssigned] at ho
      | rangeExhausted => simp [AssignOutcome.isAssigned] at ho
      | assigned appId sn =>
        obtain ⟨app, r', happ, hsnf, hr', hle, hid, hsn, hdb1⟩ :=
          assignClaim_assigned_inv hstep
        rw [hr] at hr'
        injection hr' with hr'
        subst hr'
        have hr1 : findActiveRange db1 =
            some { rr with next_number := rr.next_number + 1 } := by
          rw [hdb1]
          unfold findActiveRange at hr ⊢
          dsimp only
          rw [find?_bumpRangeRows, hr]
          simp
        obtain ⟨hissue, hbound, hfind, newE, hassign, hmapsn, hmapref, hmapact, hrangeid⟩ :=
          ih db1 { rr with next_number := rr.next_number + 1 } hr1 halltail
        dsimp only at hissue hbound hfind hrangeid
        refine ⟨?_, ?_, ?_,
          ⟨⟨app.id, app.reference_number, sn, rr.id, q.actor⟩ :: newE, ?_, ?_, ?_, ?_, ?_⟩⟩
        · rw [hconsf, issuedNumbers_cons_assigned, hissue]
          simp only [List.length_cons]
          rw [List.range_succ_eq_map, List.map_cons, List.map_map]
          congr 1
          · rw [hsn]; simp
          · apply List.map_congr_left
            intro i hi
            simp only [Function.comp_apply]
            congr 2
            push_cast
            ring
        · intro i hi
          cases i with
          | zero => simpa using hle
          | succ j =>
            have hj := hbound j (by simp only [List.length_cons] at hi; omega)
            push_cast at hj ⊢
            omega
        · rw [hconss, hfind]
          have harith : rr.next_number + 1 + (qs.length : Int) =
              rr.next_number + (((q :: qs).length : Nat) : Int) := by
            simp only [List.length_cons]
            push_cast
            ring
          rw [harith]
        · rw [hconss, hassign, hdb1]
          dsimp only
          rw [List.append_assoc]
          rfl
        · rw [hconsf, issuedNumbers_cons_assigned]
          dsimp only [List.map_cons]
          rw [hmapsn]
        · dsimp only [List.map_cons]
          rw [hmapref]
          congr 1
          exact (findApplication_mem happ).2
        · dsimp only [List.map_cons]
          rw [hmapact]
        · intro e he
          rcases List.mem_cons.mp he with h1 | h1
          · subst h1; rfl
          · exact hrangeid e h1

theorem runAssignClaims_preserve (reqs : List AssignReq) :
    ∀ (db : DB) (appId : Nat) (sn : String), sn ≠ "" →
      (∀ a ∈ db.applications, a.id = appId →
         a.accepted_status = "accepted" ∧ a.student_number = some sn) →
      (∃ a, a ∈ db.applications ∧ a.id = appId) →
      (∀ o ∈ (runAssignClaims db reqs).1, o.isAssigned = true) →
      (∀ a ∈ (runAssignClaims db reqs).2.applications, a.id = appId →
         a.accepted_status = "accepted" ∧ a.student_number = some sn) ∧
      (∃ a, a ∈ (runAssignClaims db reqs).2.applications ∧ a.id = appId) := by
  induction reqs with
  | nil => intro db appId sn hne hprop hex hall; exact ⟨hprop, hex⟩
  | cons q qs ih =>
    intro db appId sn hne hprop hex hall
    cases hstep : assignClaim db q.ref q.acceptedProgramme q.actor with
    | mk o db1 =>
      have hconsf : (runAssignClaims db (q :: qs)).1 =
          o :: (runAssignClaims db1 qs).1 := by
        rw [runAssignClaims_cons_fst, hstep]
      have hconss : (runAssignClaims db (q :: qs)).2 =
          (runAssignClaims db1 qs).2 := by
        rw [runAssignClaims_cons_snd, hstep]
      have ho : o.isAssigned = true := by
        apply hall; rw [hconsf]; exact List.mem_cons_self _ _
      have halltail : ∀ x ∈ (runAssignClaims db1 qs).1, x.isAssigned = true := by
        intro x hx; apply hall; rw [hconsf]; exact List.mem_cons_of_mem _ hx
      cases o with
      | notFound => simp [AssignOutcome.isAssigned] at ho
      | alreadyAssigned s => simp [AssignOutcome.isAssigned] at ho
      | noActiveRange => simp [AssignOutcome.isAssigned] at ho
      | rangeExhausted => simp [AssignOutcome.isAssigned] at ho
      | assigned appId1 sn1 =>
        obtain ⟨app1, r1, happ1, hsnf1, hr1x, hle1, hid1, hsn1, hdb1⟩ :=
          assignClaim_assigned_inv hstep
        have hneq : app1.id ≠ appId := by
          intro heq
          have hmem := (findApplication_mem happ1).1
          have hsome := (hprop app1 hmem heq).2
          rw [hsome] at hsnf1
          simp [truthyStr] at hsnf1
          exact hne hsnf1
        have hprop1 : ∀ a ∈ db1.applications, a.id = appId →
            a.accepted_status = "accepted" ∧ a.student_number = some sn := by
          intro a ha hida
          rw [hdb1] at ha
          dsimp only at ha
          unfold updateApplicationRows at ha
          obtain ⟨x, hx, hfx⟩ := List.mem_map.mp ha
          by_cases hxid : (x.id == app1.id) = true
          · exfalso
            apply hneq
            rw [beq_iff_eq] at hxid
            rw [if_pos (by rw [hxid]; exact beq_self_eq_true _)] at hfx
            rw [← hfx] at hida
            dsimp only at hida
            rw [← hxid]
            exact hida
          · rw [if_neg (by simp only [hxid]; exact Bool.false_ne_true)] at hfx
            subst hfx
            exact hprop x hx hida
        have hex1 : ∃ a, a ∈ db1.applications ∧ a.id = appId := by
          obtain ⟨a0, ha0, hida0⟩ := hex
          refine ⟨a0, ?_, hida0⟩
          rw [hdb1]
          dsimp only
          unfold updateApplicationRows
          refine List.mem_map.mpr ⟨a0, ha0, ?_⟩
          have hbeq : (a0.id == app1.id) = false := by
            rw [beq_eq_false_iff_ne, hida0]
            intro hcontra
            exact hneq hcontra.symm
          rw [if_neg (by simp only [hbeq]; exact Bool.false_ne_true)]
        have hres := ih db1 appId sn hne hprop1 hex1 halltail
        rw [hconss]
        exact hres

theorem runAssignClaims_app_status (reqs : List AssignReq) :
    ∀ (db : DB),
      (∀ o ∈ (runAssignClaims db reqs).1, o.isAssigned = true) →
      ∀ appId sn, AssignOutcome.assigned appId sn ∈ (runAssignClaims db reqs).1 →
      (∀ a ∈ (runAssignClaims db reqs).2.applications, a.id = appId →
         a.accepted_status = "accepted" ∧ a.student_number = some sn) ∧
      (∃ a, a ∈ (runAssignClaims db reqs).2.applications ∧ a.id = appId) := by
  induction reqs with
  | nil =>
    intro db hall appId sn hmem
    exact absurd hmem (List.not_mem_nil _)
  | cons q qs ih =>
    intro db hall appId sn hmem
    cases hstep : assignClaim db q.ref q.acceptedProgramme q.actor with
    | mk o db1 =>
      have hconsf : (runAssignClaims db (q :: qs)).1 =
          o :: (runAssignClaims db1 qs).1 := by
        rw [runAssignClaims_cons_fst, hstep]
      have hconss : (runAssignClaims db (q :: qs)).2 =
          (runAssignClaims db1 qs).2 := by
        rw [runAssignClaims_cons_snd, hstep]
      have halltail : ∀ x ∈ (runAssignClaims db1 qs).1, x.isAssigned = true := by
        intro x hx; apply hall; rw [hconsf]; exact List.mem_cons_of_mem _ hx
      rw [hconsf] at hmem
      rw [hconss]
      rcases List.mem_cons.mp hmem with hhead | htail
      · rw [← hhead] at hstep
        obtain ⟨app1, r1, happ1, hsnf1, hr1x, hle1, hid1, hsn1, hdb1⟩ :=
          assignClaim_assigned_inv hstep
        subst hid1
        have hne1 : sn ≠ "" := by
          rw [hsn1]; exact appendToString_ne_empty _ _
        have hprop1 : ∀ a ∈ db1.applications, a.id = app1.id →
            a.accepted_status = "accepted" ∧ a.student_number = some sn := by
          intro a ha hida
          rw [hdb1] at ha
          dsimp only at ha
          unfold updateApplicationRows at ha
          obtain ⟨x, hx, hfx⟩ := List.mem_map.mp ha
          by_cases hxid : (x.id == app1.id) = true
          · rw [if_pos hxid] at hfx
            rw [← hfx]
            exact ⟨rfl, rfl⟩
          · rw [if_neg hxid] at hfx
            subst hfx
            exact absurd (beq_iff_eq.mpr hida) hxid
        have hex1 : ∃ a, a ∈ db1.applications ∧ a.id = app1.id := by
          refine ⟨{ app1 with
                      accepted_status := "accepted",
                      student_number := some sn,
                      programme := (if q.acceptedProgramme == "" then app1.programme
                        else q.acceptedProgramme) }, ?_, rfl⟩
          rw [hdb1]
          dsimp only
          unfold updateApplicationRows
          refine List.mem_map.mpr ⟨app1, (findApplication_mem happ1).1, ?_⟩
          rw [if_pos (beq_self_eq_true _)]
        exact runAssignClaims_preserve qs db1 app1.id sn hne1 hprop1 hex1 halltail
      · exact ih db1 halltail appId sn htail

/-- Claim C2: starting from an active range with
`start ≤ next ≤ end` (positive bounds), every all-successful sequence
of assign claims issues exactly the numbers
`pfx ++ (next), pfx ++ (next+1), ...` — in strictly increasing
consecutive order, without duplicates, every value within
`[start, end]`; the cursor ends at `next + (number of calls)` (exactly
+1 per issuance); every successfully assigned application ends
accepted with its issued number; and the ledger grew by exactly one
entry per call linking reference, student number, range and actor. -/
theorem C2_assign_sequence
    (db : DB) (reqs : List AssignReq) (r : RangeRow)
    (hr : findActiveRange db = some r)
    (hpos : 0 < r.start_number)
    (hlo : r.start_number ≤ r.next_number)
    (hhi : r.next_number ≤ r.end_number)
    (hall : ∀ o ∈ (runAssignClaims db reqs).1, o.isAssigned = true) :
    issuedNumbers (runAssignClaims db reqs).1 =
      (List.range reqs.length).map
        (fun i : Nat => r.pfx ++ toString (r.next_number + (i : Int))) ∧
    (issuedNumbers (runAssignClaims db reqs).1).Nodup ∧
    (∀ i : Nat, i < reqs.length →
       r.start_number ≤ r.next_number + (i : Int) ∧
       r.next_number + (i : Int) ≤ r.end_number) ∧
    findActiveRange (runAssignClaims db reqs).2 =
      some { r with next_number := r.next_number + (reqs.length : Int) } ∧
    (∀ appId sn, AssignOutcome.assigned appId sn ∈ (runAssignClaims db reqs).1 →
       ∀ a ∈ (runAssignClaims db reqs).2.applications, a.id = appId →
         a.accepted_status = "accepted" ∧ a.student_number = some sn) ∧
    (∃ newEntries : List AssignmentRow,
      (runAssignClaims db reqs).2.assignments = db.assignments ++ newEntries ∧
      newEntries.map (fun e => e.student_number) =
        issuedNumbers (runAssignClaims db reqs).1 ∧
      newEntries.map (fun e => e.reference_number) = reqs.map (fun q => q.ref) ∧
      newEntries.map (fun e => e.assigned_by) = reqs.map (fun q => q.actor) ∧
      (∀ e ∈ newEntries, e.range_id = r.id)) := by
  obtain ⟨hissue, hbound, hfind, newE, hassign, hmapsn, hmapref, hmapact, hrangeid⟩ :=
    runAssignClaims_spec reqs db r hr hall
  refine ⟨hissue, ?_, ?_, hfind, ?_,
    ⟨newE, hassign, hmapsn, hmapref, hmapact, hrangeid⟩⟩
  · rw [hissue]
    refine List.Nodup.map_on ?_ (List.nodup_range reqs.length)
    intro i hi j hj heq
    have h1 := stringAppend_left_cancel heq
    have h2 := intToString_inj_nonneg
      (by omega : (0 : Int) ≤ r.next_number + (i : Int))
      (by omega : (0 : Int) ≤ r.next_number + (j : Int)) h1
    have h3 : (i : Int) = (j : Int) := by omega
    exact_mod_cast h3
  · intro i hi
    exact ⟨by omega, hbound i hi⟩
  · intro appId sn hmem
    exact (runAssignClaims_app_status reqs db hall appId sn hmem).1

/-- Witness for C2: two successful assigns against the `[5, 9]` range
issue `w5` then `w6` (no duplicates, consecutive), and the cursor ends
at 7. -/
theorem C2_assign_sequence_witness :
    issuedNumbers (runAssignClaims c2db c2reqs).1 = ["w5", "w6"] ∧
    (issuedNumbers (runAssignClaims c2db c2reqs).1).Nodup ∧
    findActiveRange (runAssignClaims c2db c2reqs).2 =
      some { exRange59 with next_number := 7 } := by
  have h := C2_assign_sequence c2db c2reqs exRange59 rfl (by decide) (by decide)
    (by decide) (by decide)
  exact ⟨by decide, h.2.1, by decide⟩

end WUA
